import Mathlib

/-!
Shallow embedding of the distributed-lock recipe (`kazoo/recipe/lock.py`,
class `ZooLock`) and verification of its specification.

The ZooKeeper client is modelled as an oracle: each embedded operation takes
a "view" record holding the responses the server would give to the client
calls that operation issues, and returns the new handle state, the list of
client calls issued (the op log) and an outcome.  Exceptions are values of
`LockErr`; Python string slicing / prefix tests are embedded at the
character-list level of `String`.
-/

namespace Kazoo

/-- ZooKeeper error codes relevant to the lock recipe (translated exceptions:
`NoNodeException`, `ConnectionLossException`, `OperationTimeoutException`,
`SessionExpiredException`, anything else). -/
inductive ZkErr
  | noNode
  | connectionLoss
  | operationTimeout
  | sessionExpired
  | other
deriving DecidableEq, Repr

/-- Errors that can escape a lock operation: a translated ZooKeeper error, or
the internal `ForceRetryError` of `kazoo.retry`. -/
inductive LockErr
  | zk (e : ZkErr)
  | forceRetry
deriving DecidableEq, Repr

/-- Result of running an embedded operation: normal return, raised error, or
fuel exhaustion (the operation is still blocked / still retrying). -/
inductive Outcome (α : Type)
  | ok (a : α)
  | err (e : LockErr)
  | timeout
deriving DecidableEq, Repr

def Outcome.map {α β : Type} (f : α → β) : Outcome α → Outcome β
  | .ok a => .ok (f a)
  | .err e => .err e
  | .timeout => .timeout

/-- Client calls a lock operation can issue (the op log records them). -/
inductive ZkOp
  | create (path data : String) (ephemeral sequence : Bool)
  | delete (path : String)
  | getChildren (path : String)
  | get (path : String)
  | existsW (path : String)
deriving DecidableEq, Repr

/-- Source constant `ZooLock._LOCK_NAME`. -/
def LOCK_NAME : String := "_lock_"

/-- Index of the first occurrence of `pat` in `s`, or `none`
(`List Char` level). -/
def firstOccur (pat : List Char) : List Char → Option Nat
  | [] => if pat = [] then some 0 else none
  | c :: t =>
    if pat.isPrefixOf (c :: t) then some 0
    else (firstOccur pat t).map (· + 1)

/-- Python `s.find(pat)`: index of the first occurrence, `-1` if absent. -/
def pyFind (s pat : String) : Int :=
  match firstOccur pat.data s.data with
  | some i => (i : Int)
  | none => -1

/-- Python `s[n:]` (character slice). -/
def strDrop (s : String) (n : Nat) : String := ⟨s.data.drop n⟩

/-- Python `c.startswith(p)`. -/
def strStartsWith (c p : String) : Bool := p.data.isPrefixOf c.data

/-- The sort key of `_get_sorted_children`:
`c[c.find(lockname) + len(lockname):]`. -/
def sortKey (c : String) : String :=
  strDrop c (pyFind c LOCK_NAME + (LOCK_NAME.length : Int)).toNat

/-- Python `a <= b` on character lists: lexicographic by code point. -/
def charListLe : List Char → List Char → Bool
  | [], _ => true
  | _ :: _, [] => false
  | a :: as, b :: bs =>
    if a < b then true else if b < a then false else charListLe as bs

/-- Python `a <= b` on strings. -/
def strLe (a b : String) : Bool := charListLe a.data b.data

/-- Source method `ZooLock._get_sorted_children`, given the listed children: sort (stably,
as Python's `list.sort` does; a stable sort under a total preorder is
unique, so insertion sort embeds it faithfully) by the portion of each name
following the `_lock_` marker. -/
def get_sorted_children (children : List String) : List String :=
  children.insertionSort (fun a b => strLe (sortKey a) (sortKey b) = true)

/-- Source method `ZooLock._find_node`, given the listed children: first child whose name
starts with this handle's prefix. -/
def find_node (pfx : String) (children : List String) : Option String :=
  children.find? (fun c => strStartsWith c pfx)

/-- The mutable per-handle state of a `ZooLock` (`pfx` is the source's
`prefix` field, renamed; `node` is `None`-able). -/
structure LockState where
  path : String
  data : String
  pfx : String
  create_path : String
  create_tried : Bool
  is_acquired : Bool
  node : Option String
deriving DecidableEq, Repr

/-- Source constructor `ZooLock.__init__` (the random `uuid4().hex` is a parameter). -/
def ZooLock.init (path contender_name uuid_hex : String) : LockState :=
  { path := path
    data := contender_name
    pfx := uuid_hex ++ LOCK_NAME
    create_path := path ++ "/" ++ (uuid_hex ++ LOCK_NAME)
    create_tried := false
    is_acquired := false
    node := none }

/-- Server responses observed by one iteration of `_inner_acquire`'s `while`
loop: the `get_children` answer and the predecessor `exists` answer. -/
structure IterView where
  children : Except ZkErr (List String)
  pred_exists : Bool

/-- Server responses observed by one invocation of `_inner_acquire`. -/
structure AcquireView where
  find_children : Except ZkErr (List String)
  create_result : Except ZkErr String
  iters : List IterView

/-- Server responses observed by `_best_effort_cleanup` (both are allowed to
fail; any failure is swallowed). -/
structure CleanupView where
  children : Except ZkErr (List String)
  delete_result : Except ZkErr Unit

/-- Server responses observed by `get_contenders`: the children listing and,
per full child path, the `get` answer. -/
structure ContendersView where
  children : Except ZkErr (List String)
  get_result : String → Except ZkErr String

/-- Python truthiness test `if not node:` on a `None`-able string. -/
def pyFalsy : Option String → Bool
  | none => true
  | some s => s.data.isEmpty

/-- What one iteration of the acquire loop decides. -/
inductive IterResult
  | acquired
  | forceRetry
  | raised (e : ZkErr)
  | watchAndLoop (predecessor : String) (existed : Bool)
deriving DecidableEq, Repr

/-- One iteration of `_inner_acquire`'s `while` loop: list and sort the
children, locate our node; index 0 means acquired, absence raises
`ForceRetryError`, index `i+1` watches the predecessor at index `i`. -/
def loopIter (path node : String) (v : IterView) : IterResult :=
  match v.children with
  | .error e => .raised e
  | .ok cs =>
    match (get_sorted_children cs).indexOf? node with
    | none => .forceRetry
    | some 0 => .acquired
    | some (i + 1) =>
      .watchAndLoop (path ++ "/" ++ (get_sorted_children cs).getD i "") v.pred_exists

/-- The `while True` loop of `_inner_acquire`, one `IterView` per iteration;
running out of views models a still-blocked caller. -/
def acquireLoop (path node : String) : List IterView → List ZkOp × Outcome Bool
  | [] => ([], .timeout)
  | v :: rest =>
    match loopIter path node v with
    | .raised e => ([.getChildren path], .err (.zk e))
    | .forceRetry => ([.getChildren path], .err .forceRetry)
    | .acquired => ([.getChildren path], .ok true)
    | .watchAndLoop pred _ =>
      let r := acquireLoop path node rest
      (.getChildren path :: .existsW pred :: r.1, r.2)

/-- Tail of `_inner_acquire` once `self.node` is known: record it and enter
the loop. -/
def acquireWithNode (st : LockState) (v : AcquireView) (log : List ZkOp)
    (node : String) : LockState × List ZkOp × Outcome Bool :=
  let r := acquireLoop st.path node v.iters
  ({st with node := some node}, log ++ r.1, r.2)

/-- The `if not node:` branch of `_inner_acquire`: issue the ephemeral,
sequential create at `create_path`, strip `path + "/"` off the returned
name. -/
def createAndGo (st : LockState) (v : AcquireView) (log : List ZkOp) :
    LockState × List ZkOp × Outcome Bool :=
  let log2 := log ++ [ZkOp.create st.create_path st.data true true]
  match v.create_result with
  | .error e => (st, log2, .err (.zk e))
  | .ok full => acquireWithNode st v log2 (strDrop full (st.path.length + 1))

/-- Source method `_inner_acquire` after step 1's discovery decision (`node?` is the
re-discovered node, `none` when no re-discovery happened). -/
def afterStep1 (st : LockState) (v : AcquireView) (log : List ZkOp)
    (node? : Option String) : LockState × List ZkOp × Outcome Bool :=
  if pyFalsy node? then createAndGo st v log
  else
    match node? with
    | some node => acquireWithNode st v log node
    | none => createAndGo st v log

/-- Source method `ZooLock._inner_acquire`. -/
def innerAcquire (st : LockState) (v : AcquireView) :
    LockState × List ZkOp × Outcome Bool :=
  if st.create_tried then
    match v.find_children with
    | .error e => (st, [.getChildren st.path], .err (.zk e))
    | .ok cs => afterStep1 st v [.getChildren st.path] (find_node st.pfx cs)
  else
    afterStep1 {st with create_tried := true} v [] none

/-- Modelled from the spec: the retry executor's failure classification
(`kazoo/retry.py` is not under `src/`; §4.2 retries the force-retry signal
and recognized transient failures — connection loss, operation timeout —
and propagates anything else immediately). -/
def retryable : LockErr → Bool
  | .forceRetry => true
  | .zk .connectionLoss => true
  | .zk .operationTimeout => true
  | _ => false

/-- Modelled from the spec: `client.retry(op)` of §4.2 (`kazoo/retry.py` is
not under `src/`): invoke `op`; re-invoke on a retryable failure, propagate
any other failure; one view per invocation, running out of views models an
executor still retrying. -/
def retryRun {V α : Type} (op : LockState → V → LockState × List ZkOp × Outcome α) :
    LockState → List V → LockState × List ZkOp × Outcome α
  | st, [] => (st, [], .timeout)
  | st, v :: rest =>
    let r := op st v
    match r.2.2 with
    | .ok a => (r.1, r.2.1, .ok a)
    | .timeout => (r.1, r.2.1, .timeout)
    | .err e =>
      if retryable e then
        let r2 := retryRun op r.1 rest
        (r2.1, r.2.1 ++ r2.2.1, r2.2.2)
      else (r.1, r.2.1, .err e)

/-- Source method `ZooLock._best_effort_cleanup`: re-discover our node by prefix and delete
it if found; every exception is swallowed and the handle state is untouched,
so only the op log comes back. -/
def best_effort_cleanup (st : LockState) (v : CleanupView) : List ZkOp :=
  match v.children with
  | .error _ => [.getChildren st.path]
  | .ok cs =>
    match find_node st.pfx cs with
    | none => [.getChildren st.path]
    | some n => [.getChildren st.path, .delete (st.path ++ "/" ++ n)]

/-- Source method `ZooLock.acquire`: run `_inner_acquire` through the retry executor; on
success set `is_acquired`; on failure run best-effort cleanup and re-raise
the original error unchanged. -/
def acquire (st : LockState) (views : List AcquireView) (cv : CleanupView) :
    LockState × List ZkOp × Outcome Unit :=
  let r := retryRun innerAcquire st views
  match r.2.2 with
  | .ok _ => ({r.1 with is_acquired := true}, r.2.1, .ok ())
  | .timeout => (r.1, r.2.1, .timeout)
  | .err e => (r.1, r.2.1 ++ best_effort_cleanup r.1 cv, .err e)

/-- Source method `ZooLock._inner_release`: no-op returning `false` when not acquired;
otherwise delete `path + "/" + node` (the delete's response is the view),
then clear `is_acquired` and `node` and return `true`. -/
def inner_release (st : LockState) (deleteRes : Except ZkErr Unit) :
    LockState × List ZkOp × Outcome Bool :=
  if st.is_acquired then
    match deleteRes with
    | .error e => (st, [.delete (st.path ++ "/" ++ st.node.getD "")], .err (.zk e))
    | .ok _ =>
      ({st with is_acquired := false, node := none},
       [.delete (st.path ++ "/" ++ st.node.getD "")], .ok true)
  else (st, [], .ok false)

/-- Source method `ZooLock.release`: runs `_inner_release` through the retry executor, one
delete response per invocation. -/
def release (st : LockState) (views : List (Except ZkErr Unit)) :
    LockState × List ZkOp × Outcome Bool :=
  retryRun inner_release st views

/-- The `for child in children` loop of `get_contenders`: fetch each child's
data, silently skipping a child whose `get` fails with `NoNodeException`;
any other error propagates. -/
def contendersLoop (base : String) (getRes : String → Except ZkErr String) :
    List String → List ZkOp × Outcome (List String)
  | [] => ([], .ok [])
  | c :: rest =>
    match getRes (base ++ "/" ++ c) with
    | .ok d =>
      let r := contendersLoop base getRes rest
      (.get (base ++ "/" ++ c) :: r.1, r.2.map (fun l => d :: l))
    | .error .noNode =>
      let r := contendersLoop base getRes rest
      (.get (base ++ "/" ++ c) :: r.1, r.2)
    | .error e => ([.get (base ++ "/" ++ c)], .err (.zk e))

/-- Source method `ZooLock.get_contenders`: sorted children, then the data of each child
whose `get` succeeds, in that order. -/
def get_contenders (st : LockState) (v : ContendersView) :
    List ZkOp × Outcome (List String) :=
  match v.children with
  | .error e => ([.getChildren st.path], .err (.zk e))
  | .ok cs =>
    let r := contendersLoop st.path v.get_result (get_sorted_children cs)
    (.getChildren st.path :: r.1, r.2)

/-- A freshly constructed demo handle (`uuid4().hex` taken as `"u"`). -/
def demoLock : LockState := ZooLock.init "/l" "" "u"

/-- A demo handle that holds the lock on node `u_lock_0000000001`. -/
def demoHeld : LockState :=
  { demoLock with
    create_tried := true
    is_acquired := true
    node := some "u_lock_0000000001" }

/-- A loop iteration observing this handle's node at index 0. -/
def demoIterFirst : IterView :=
  { children := Except.ok ["u_lock_0000000001", "w_lock_0000000002"],
    pred_exists := true }

/-- A loop iteration in which this handle's node has vanished. -/
def demoIterGone : IterView :=
  { children := Except.ok ["w_lock_0000000002"], pred_exists := false }

/-- A cleanup view over an empty children listing. -/
def demoCleanup : CleanupView :=
  { children := Except.ok [], delete_result := Except.ok () }

/-- An acquire view whose create call fails fatally. -/
def demoAcquireFail : AcquireView :=
  { find_children := Except.ok [], create_result := Except.error ZkErr.noNode,
    iters := [] }

/-- An acquire view whose create succeeds and finds itself first. -/
def demoAcquireOk : AcquireView :=
  { find_children := Except.ok [], create_result := Except.ok "/l/u_lock_0000000001",
    iters := [demoIterFirst] }

/-- An acquire view for a retry: re-discovery will find the handle's node. -/
def demoRediscover : AcquireView :=
  { find_children := Except.ok ["u_lock_0000000001"]
    create_result := Except.ok "/l/x_lock_0000000009"
    iters := [] }

/-- A contenders view in which every child vanishes before its `get`. -/
def vanishedView : ContendersView :=
  { children := Except.ok ["b_lock_0002", "a_lock_0001"]
    get_result := fun _ => Except.error ZkErr.noNode }

/-! ## Helper lemmas -/

theorem charListLe_trans : ∀ a b c : List Char, charListLe a b = true →
    charListLe b c = true → charListLe a c = true
  | [], _, _, _, _ => rfl
  | _ :: _, [], _, h, _ => by simp [charListLe] at h
  | _ :: _, _ :: _, [], _, h => by simp [charListLe] at h
  | x :: xs, y :: ys, z :: zs, h1, h2 => by
    simp only [charListLe] at h1 h2 ⊢
    rcases lt_trichotomy x y with hxy | hxy | hxy
    · rcases lt_trichotomy y z with hyz | hyz | hyz
      · rw [if_pos (lt_trans hxy hyz)]
      · subst hyz; rw [if_pos hxy]
      · rw [if_neg (lt_asymm hyz), if_pos hyz] at h2
        exact absurd h2 (by simp)
    · subst hxy
      rw [if_neg (lt_irrefl x), if_neg (lt_irrefl x)] at h1
      rcases lt_trichotomy x z with hxz | hxz | hxz
      · rw [if_pos hxz]
      · subst hxz
        rw [if_neg (lt_irrefl x), if_neg (lt_irrefl x)] at h2 ⊢
        exact charListLe_trans xs ys zs h1 h2
      · rw [if_neg (lt_asymm hxz), if_pos hxz] at h2
        exact absurd h2 (by simp)
    · rw [if_neg (lt_asymm hxy), if_pos hxy] at h1
      exact absurd h1 (by simp)

theorem charListLe_total : ∀ a b : List Char,
    charListLe a b = true ∨ charListLe b a = true
  | [], _ => Or.inl rfl
  | _ :: _, [] => Or.inr rfl
  | x :: xs, y :: ys => by
    simp only [charListLe]
    rcases lt_trichotomy x y with h | h | h
    · exact Or.inl (by rw [if_pos h])
    · subst h
      rcases charListLe_total xs ys with ih | ih
      · refine Or.inl ?_
        rw [if_neg (lt_irrefl x), if_neg (lt_irrefl x)]
        exact ih
      · refine Or.inr ?_
        rw [if_neg (lt_irrefl x), if_neg (lt_irrefl x)]
        exact ih
    · exact Or.inr (by rw [if_pos h])

theorem afterStep1_create_tried (st : LockState) (v : AcquireView)
    (log : List ZkOp) (node? : Option String) :
    (afterStep1 st v log node?).1.create_tried = st.create_tried := by
  unfold afterStep1 createAndGo acquireWithNode
  split
  · cases v.create_result <;> simp
  · cases node? with
    | none => cases v.create_result <;> simp
    | some n => simp

theorem innerAcquire_create_tried (st : LockState) (v : AcquireView) :
    (innerAcquire st v).1.create_tried = true ∨ (innerAcquire st v).1 = st := by
  unfold innerAcquire
  cases h : st.create_tried with
  | true =>
    simp only [if_true]
    cases hv : v.find_children with
    | error e => exact Or.inr rfl
    | ok cs => exact Or.inl ((afterStep1_create_tried _ _ _ _).trans h)
  | false =>
    simp only [Bool.false_eq_true, if_false]
    exact Or.inl (afterStep1_create_tried _ _ _ _)

theorem innerAcquire_preserves_create_tried (st : LockState) (v : AcquireView)
    (h : st.create_tried = true) : (innerAcquire st v).1.create_tried = true := by
  rcases innerAcquire_create_tried st v with h2 | h2
  · exact h2
  · rw [h2]; exact h

theorem retryRun_preserves {V α : Type}
    (op : LockState → V → LockState × List ZkOp × Outcome α)
    (P : LockState → Prop) (hop : ∀ st v, P st → P (op st v).1) :
    ∀ (vs : List V) (st : LockState), P st → P (retryRun op st vs).1 := by
  intro vs
  induction vs with
  | nil => intro st h; exact h
  | cons v rest ih =>
    intro st h
    have h1 : P (op st v).1 := hop st v h
    unfold retryRun
    cases ho : (op st v).2.2 with
    | ok a => simpa [ho] using h1
    | timeout => simpa [ho] using h1
    | err e =>
      by_cases hr : retryable e
      · simpa [ho, hr] using ih (op st v).1 h1
      · simpa [ho, hr] using h1

theorem inner_release_create_tried (st : LockState) (d : Except ZkErr Unit) :
    (inner_release st d).1.create_tried = st.create_tried := by
  unfold inner_release
  split
  · cases d <;> simp
  · simp

theorem retryRun_err_not_retryable {V α : Type}
    (op : LockState → V → LockState × List ZkOp × Outcome α) :
    ∀ (vs : List V) (st st1 : LockState) (log : List ZkOp) (e : LockErr),
      retryRun op st vs = (st1, log, Outcome.err e) → retryable e = false := by
  intro vs
  induction vs with
  | nil => intro st st1 log e h; simp [retryRun] at h
  | cons v rest ih =>
    intro st st1 log e h
    unfold retryRun at h
    cases ho : (op st v).2.2 with
    | ok a => simp [ho] at h
    | timeout => simp [ho] at h
    | err e2 =>
      by_cases hr : retryable e2
      · simp only [ho, hr, if_true] at h
        rcases hrr : retryRun op (op st v).1 rest with ⟨s3, l3, o3⟩
        rw [hrr] at h
        have ho3 : o3 = Outcome.err e := by
          have h22 := congrArg (fun p => p.2.2) h
          simpa using h22
        subst ho3
        exact ih _ _ _ _ hrr
      · simp only [ho, hr, if_false] at h
        have he : e2 = e := by
          have h22 := congrArg (fun p => p.2.2) h
          simpa using h22
        subst he
        exact Bool.eq_false_iff.mpr hr

theorem innerAcquire_fresh (st : LockState) (v : AcquireView)
    (h : st.create_tried = false) :
    innerAcquire st v = createAndGo { st with create_tried := true } v [] := by
  simp [innerAcquire, h, afterStep1, pyFalsy]

theorem innerAcquire_retry (st : LockState) (v : AcquireView)
    (h : st.create_tried = true) (cs : List String)
    (hv : v.find_children = Except.ok cs) :
    innerAcquire st v =
      afterStep1 st v [ZkOp.getChildren st.path] (find_node st.pfx cs) := by
  simp [innerAcquire, h, hv]

theorem createAndGo_err (st : LockState) (v : AcquireView) (log : List ZkOp)
    (e : ZkErr) (hcr : v.create_result = Except.error e) :
    createAndGo st v log =
      (st, log ++ [ZkOp.create st.create_path st.data true true],
       Outcome.err (LockErr.zk e)) := by
  simp [createAndGo, hcr]

theorem createAndGo_ok (st : LockState) (v : AcquireView) (log : List ZkOp)
    (full : String) (hcr : v.create_result = Except.ok full) :
    createAndGo st v log =
      ({ st with node := some (strDrop full (st.path.length + 1)) },
       (log ++ [ZkOp.create st.create_path st.data true true]) ++
         (acquireLoop st.path (strDrop full (st.path.length + 1)) v.iters).1,
       (acquireLoop st.path (strDrop full (st.path.length + 1)) v.iters).2) := by
  simp [createAndGo, hcr, acquireWithNode]

theorem afterStep1_found (st : LockState) (v : AcquireView) (log : List ZkOp)
    (c : String) (hfal : pyFalsy (some c) = false) :
    afterStep1 st v log (some c) =
      ({ st with node := some c }, log ++ (acquireLoop st.path c v.iters).1,
       (acquireLoop st.path c v.iters).2) := by
  simp [afterStep1, hfal, acquireWithNode]

theorem afterStep1_none (st : LockState) (v : AcquireView) (log : List ZkOp) :
    afterStep1 st v log none = createAndGo st v log := by
  simp [afterStep1, pyFalsy]

theorem acquireLoop_no_create (path node p d : String) (e s : Bool) :
    ∀ iters : List IterView, ZkOp.create p d e s ∉ (acquireLoop path node iters).1 := by
  intro iters
  induction iters with
  | nil => simp [acquireLoop]
  | cons v rest ih =>
    unfold acquireLoop
    cases loopIter path node v <;> simp [ih]

theorem startsWith_not_falsy {c p : String} (h : strStartsWith c p = true)
    (hp : p ≠ "") : pyFalsy (some c) = false := by
  have hpd : p.data ≠ [] := by
    intro h0
    apply hp
    cases p with
    | mk d =>
      cases h0
      rfl
  have hpre : p.data <+: c.data := List.isPrefixOf_iff_prefix.mp h
  obtain ⟨t, ht⟩ := hpre
  unfold pyFalsy
  cases hd : p.data with
  | nil => exact absurd hd hpd
  | cons x xs =>
    rw [hd] at ht
    simp [← ht]

theorem indexOf_none_iff_not_mem (a : String) (l : List String) :
    l.indexOf? a = none ↔ a ∉ l := by
  simp only [List.indexOf?, List.findIdx?_eq_none_iff, beq_eq_false_iff_ne, ne_eq]
  constructor
  · intro h ha
    exact h a ha rfl
  · intro h x hx he
    subst he
    exact h hx

theorem acquire_ok_is_acquired (st : LockState) (avs : List AcquireView)
    (cv : CleanupView) (st1 : LockState) (log : List ZkOp)
    (h : acquire st avs cv = (st1, log, Outcome.ok ())) : st1.is_acquired = true := by
  unfold acquire at h
  cases ho : (retryRun innerAcquire st avs).2.2 with
  | ok a =>
    simp only [ho] at h
    have h1 := congrArg (fun p => p.1.is_acquired) h
    simpa using h1.symm
  | timeout => simp [ho] at h
  | err e => simp [ho] at h

theorem acquire_err_retryRun (st : LockState) (avs : List AcquireView)
    (cv : CleanupView) (e : LockErr)
    (h : (acquire st avs cv).2.2 = Outcome.err e) :
    (retryRun innerAcquire st avs).2.2 = Outcome.err e := by
  unfold acquire at h
  cases ho : (retryRun innerAcquire st avs).2.2 with
  | ok a => simp [ho] at h
  | timeout => simp [ho] at h
  | err e2 =>
    simp only [ho] at h
    simp at h
    simp [ho, h]

theorem contendersLoop_ok (base : String) (g : String → Except ZkErr String) :
    ∀ l : List String,
      (∀ c ∈ l, ∀ e, g (base ++ "/" ++ c) = Except.error e → e = ZkErr.noNode) →
      (contendersLoop base g l).2 =
        Outcome.ok (l.filterMap (fun c => (g (base ++ "/" ++ c)).toOption)) := by
  intro l
  induction l with
  | nil => intro _; simp [contendersLoop]
  | cons c rest ih =>
    intro h
    have hrest : ∀ c2 ∈ rest, ∀ e, g (base ++ "/" ++ c2) = Except.error e →
        e = ZkErr.noNode := fun c2 hc2 e he => h c2 (List.mem_cons_of_mem _ hc2) e he
    unfold contendersLoop
    cases hg : g (base ++ "/" ++ c) with
    | ok d => simp [hg, ih hrest, Except.toOption, Outcome.map]
    | error e =>
      have he : e = ZkErr.noNode := h c (List.mem_cons_self _ _) e hg
      subst he
      simp [hg, ih hrest, Except.toOption]

/-! ## Claim theorems -/

/-- C1: the code violates the claim.  On a handle with `is_acquired = true`
whose contender node is already gone, the delete inside `_inner_release`
fails with `NoNode`; `_inner_release` has no absence-as-success handling, the
executor does not retry `NoNode`, so `release()` raises instead of returning
`true`, and `is_acquired` stays set. -/
theorem release_absent_node_raises :
    release demoHeld [Except.error ZkErr.noNode] =
      (demoHeld, [ZkOp.delete "/l/u_lock_0000000001"],
       Outcome.err (LockErr.zk ZkErr.noNode)) := by
  rfl

/-- C2: `release()` on an unacquired handle is a no-op returning `false`
(state untouched, no client call issued); on an acquired handle with a
successful delete of `path + "/" + node` it clears `is_acquired` and `node`
and returns `true`; hence after a successful `acquire()` two consecutive
releases return `true` then `false`. -/
theorem release_noop_then_idempotent (st : LockState)
    (v : Except ZkErr Unit) (vs vs2 : List (Except ZkErr Unit))
    (avs : List AcquireView) (cv : CleanupView) :
    (st.is_acquired = false → release st (v :: vs) = (st, [], Outcome.ok false))
    ∧ (st.is_acquired = true →
        release st (Except.ok () :: vs) =
          ({st with is_acquired := false, node := none},
           [ZkOp.delete (st.path ++ "/" ++ st.node.getD "")], Outcome.ok true))
    ∧ (∀ st1 log, acquire st avs cv = (st1, log, Outcome.ok ()) →
        (release st1 (Except.ok () :: vs)).2.2 = Outcome.ok true
        ∧ (release (release st1 (Except.ok () :: vs)).1 (v :: vs2)).2.2 =
            Outcome.ok false) := by
  refine ⟨?_, ?_, ?_⟩
  · intro h
    simp [release, retryRun, inner_release, h]
  · intro h
    simp [release, retryRun, inner_release, h]
  · intro st1 log h
    have ha : st1.is_acquired = true := acquire_ok_is_acquired st avs cv st1 log h
    have h2 : release st1 (Except.ok () :: vs) =
        ({st1 with is_acquired := false, node := none},
         [ZkOp.delete (st1.path ++ "/" ++ st1.node.getD "")], Outcome.ok true) := by
      simp [release, retryRun, inner_release, ha]
    refine ⟨by rw [h2], ?_⟩
    rw [h2]
    simp [release, retryRun, inner_release]

/-- C2 witness: a fresh (unacquired) handle releases as a no-op
returning `false`. -/
theorem release_noop_then_idempotent_witness :
    release demoLock [Except.ok ()] = (demoLock, [], Outcome.ok false) :=
  (release_noop_then_idempotent demoLock (Except.ok ()) [] [] [] demoCleanup).1 rfl

/-- C10: if the delete issued by `_inner_release` raises any non-`NoNode`
error, the error propagates and `is_acquired` and `node` are left exactly as
they were (the state component of the result is the input state). -/
theorem inner_release_failure_atomic (st : LockState) (e : ZkErr)
    (hacq : st.is_acquired = true) (hne : e ≠ ZkErr.noNode) :
    inner_release st (Except.error e) =
      (st, [ZkOp.delete (st.path ++ "/" ++ st.node.getD "")],
       Outcome.err (LockErr.zk e)) := by
  simp [inner_release, hacq]

/-- C10 witness: connection loss during the delete leaves the held handle
unchanged. -/
theorem inner_release_failure_atomic_witness :
    inner_release demoHeld (Except.error ZkErr.connectionLoss) =
      (demoHeld, [ZkOp.delete "/l/u_lock_0000000001"],
       Outcome.err (LockErr.zk ZkErr.connectionLoss)) :=
  inner_release_failure_atomic demoHeld ZkErr.connectionLoss rfl (by decide)

/-- C9: `create_tried` is monotonic: false at construction; `_inner_acquire`
(and therefore `acquire`) never resets it once true; `release` and
`_inner_release` leave it unchanged (`get_contenders` and
`_best_effort_cleanup` return no state at all in this embedding — they
mutate nothing). -/
theorem create_tried_monotonic (path data uuid : String) :
    (ZooLock.init path data uuid).create_tried = false
    ∧ (∀ st v, st.create_tried = true → (innerAcquire st v).1.create_tried = true)
    ∧ (∀ st avs cv, st.create_tried = true →
        (acquire st avs cv).1.create_tried = true)
    ∧ (∀ st vs, (release st vs).1.create_tried = st.create_tried)
    ∧ (∀ st d, (inner_release st d).1.create_tried = st.create_tried) := by
  refine ⟨rfl, innerAcquire_preserves_create_tried, ?_, ?_, inner_release_create_tried⟩
  · intro st avs cv h
    have hp : (retryRun innerAcquire st avs).1.create_tried = true :=
      retryRun_preserves innerAcquire (fun s => s.create_tried = true)
        (fun s v hs => innerAcquire_preserves_create_tried s v hs) avs st h
    unfold acquire
    cases ho : (retryRun innerAcquire st avs).2.2 <;> simpa [ho] using hp
  · intro st vs
    exact retryRun_preserves inner_release (fun s => s.create_tried = st.create_tried)
      (fun s v hs => (inner_release_create_tried s v).trans hs) vs st rfl

/-- C9 witness: on a handle with `create_tried` already true, another
`_inner_acquire` leaves it true. -/
theorem create_tried_monotonic_witness :
    (innerAcquire demoHeld demoAcquireOk).1.create_tried = true :=
  (create_tried_monotonic "/l" "" "u").2.1 demoHeld demoAcquireOk rfl

/-- C4: a loop iteration accepts exactly when `node` sits at index 0 of the
sorted children (the sole acceptance condition); at index `i + 1` the
iteration watches the predecessor at index `i` and the loop continues rather
than returning; an iteration that accepts makes the body return `true`; and
`acquire` returning normally implies `is_acquired = true`. -/
theorem index_zero_sole_acceptance (path node : String) (v : IterView)
    (cs : List String) (rest : List IterView) (st : LockState)
    (avs : List AcquireView) (cv : CleanupView)
    (hv : v.children = Except.ok cs) :
    (loopIter path node v = IterResult.acquired ↔
      (get_sorted_children cs).indexOf? node = some 0)
    ∧ (∀ i, (get_sorted_children cs).indexOf? node = some (i + 1) →
        loopIter path node v =
          IterResult.watchAndLoop
            (path ++ "/" ++ (get_sorted_children cs).getD i "") v.pred_exists
        ∧ (acquireLoop path node (v :: rest)).2 = (acquireLoop path node rest).2)
    ∧ (loopIter path node v = IterResult.acquired →
        (acquireLoop path node (v :: rest)).2 = Outcome.ok true)
    ∧ (∀ st1 log, acquire st avs cv = (st1, log, Outcome.ok ()) →
        st1.is_acquired = true) := by
  refine ⟨?_, ?_, ?_, ?_⟩
  · simp only [loopIter, hv]
    cases hidx : (get_sorted_children cs).indexOf? node with
    | none => simp
    | some i =>
      cases i with
      | zero => simp
      | succ n => simp
  · intro i hidx
    have hl : loopIter path node v =
        IterResult.watchAndLoop
          (path ++ "/" ++ (get_sorted_children cs).getD i "") v.pred_exists := by
      simp only [loopIter, hv, hidx]
    refine ⟨hl, ?_⟩
    simp only [acquireLoop, hl]
  · intro hacq
    simp only [acquireLoop, hacq]
  · intro st1 log h
    exact acquire_ok_is_acquired st avs cv st1 log h

/-- C4 witness: with the handle's node first in the listing, the iteration
accepts and the loop body returns `true`. -/
theorem index_zero_sole_acceptance_witness :
    loopIter "/l" "u_lock_0000000001" demoIterFirst = IterResult.acquired
    ∧ (acquireLoop "/l" "u_lock_0000000001" [demoIterFirst]).2 = Outcome.ok true := by
  have h := index_zero_sole_acceptance "/l" "u_lock_0000000001" demoIterFirst
    ["u_lock_0000000001", "w_lock_0000000002"] [] demoLock [] demoCleanup rfl
  have h1 : loopIter "/l" "u_lock_0000000001" demoIterFirst = IterResult.acquired :=
    h.1.mpr (by decide)
  exact ⟨h1, h.2.2.1 h1⟩

/-- C6: a loop iteration raises the internal force-retry signal precisely
when the handle's node is absent from the listed children; and no error that
`acquire` lets escape is the force-retry signal (the retry executor always
consumes it). -/
theorem force_retry_iff_node_vanished (path node : String) (v : IterView)
    (cs : List String) (st : LockState) (avs : List AcquireView)
    (cv : CleanupView) (hv : v.children = Except.ok cs) :
    (loopIter path node v = IterResult.forceRetry ↔ node ∉ cs)
    ∧ (∀ e, (acquire st avs cv).2.2 = Outcome.err e → e ≠ LockErr.forceRetry) := by
  constructor
  · have hmem : (get_sorted_children cs).indexOf? node = none ↔ node ∉ cs := by
      rw [indexOf_none_iff_not_mem]
      constructor
      · intro h hmem
        exact h ((List.mem_insertionSort _).mpr hmem)
      · intro h hmem
        exact h ((List.mem_insertionSort _).mp hmem)
    rw [← hmem]
    simp only [loopIter, hv]
    cases hidx : (get_sorted_children cs).indexOf? node with
    | none => simp
    | some i =>
      cases i with
      | zero => simp
      | succ n => simp
  · intro e he hfr
    subst hfr
    have h1 : (retryRun innerAcquire st avs).2.2 = Outcome.err LockErr.forceRetry :=
      acquire_err_retryRun st avs cv LockErr.forceRetry he
    rcases hr : retryRun innerAcquire st avs with ⟨s2, l2, o2⟩
    rw [hr] at h1
    simp only at h1
    subst h1
    have := retryRun_err_not_retryable innerAcquire avs st s2 l2 LockErr.forceRetry hr
    simp [retryable] at this

/-- C6 witness: with the handle's node missing from the listing, the
iteration signals force-retry. -/
theorem force_retry_iff_node_vanished_witness :
    loopIter "/l" "u_lock_0000000001" demoIterGone = IterResult.forceRetry :=
  (force_retry_iff_node_vanished "/l" "u_lock_0000000001" demoIterGone
    ["w_lock_0000000002"] demoLock [] demoCleanup rfl).1.mpr (by decide)

/-- C7: when the retried acquire body ends in an error, `acquire` appends
exactly the best-effort cleanup calls (re-discovery by prefix, plus the
delete when a node with this handle's prefix is found) and re-raises the
original error unchanged; a cleanup whose own listing fails issues nothing
further and swallows that failure. -/
theorem acquire_failure_cleanup_reraise (st st1 : LockState)
    (avs : List AcquireView) (cv : CleanupView) (log : List ZkOp) (e : LockErr)
    (h : retryRun innerAcquire st avs = (st1, log, Outcome.err e)) :
    acquire st avs cv = (st1, log ++ best_effort_cleanup st1 cv, Outcome.err e)
    ∧ (∀ cs c, cv.children = Except.ok cs → find_node st1.pfx cs = some c →
        ZkOp.delete (st1.path ++ "/" ++ c) ∈ best_effort_cleanup st1 cv)
    ∧ (∀ e2, cv.children = Except.error e2 →
        best_effort_cleanup st1 cv = [ZkOp.getChildren st1.path]) := by
  refine ⟨?_, ?_, ?_⟩
  · unfold acquire
    rw [h]
  · intro cs c hcv hf
    simp [best_effort_cleanup, hcv, hf]
  · intro e2 hcv
    simp [best_effort_cleanup, hcv]

/-- C7 witness: a fatally failing create makes `acquire` run cleanup over
the listing and re-raise the create's error. -/
theorem acquire_failure_cleanup_reraise_witness :
    acquire demoLock [demoAcquireFail] demoCleanup =
      ({ demoLock with create_tried := true },
       [ZkOp.create "/l/u_lock_" "" true true, ZkOp.getChildren "/l"],
       Outcome.err (LockErr.zk ZkErr.noNode)) := by
  have h := (acquire_failure_cleanup_reraise demoLock
    { demoLock with create_tried := true } [demoAcquireFail] demoCleanup
    [ZkOp.create "/l/u_lock_" "" true true] (LockErr.zk ZkErr.noNode)
    (by decide)).1
  exact h

/-- C5: when every child name contains the `_lock_` marker, the sorted
children are a permutation of the listing, ordered by the portion of each
name following the marker (its sort key is exactly the name with everything
through the first marker occurrence dropped). -/
theorem sorted_by_marker_suffix (cs : List String)
    (h : ∀ c ∈ cs, 0 ≤ pyFind c LOCK_NAME) :
    (get_sorted_children cs).Perm cs
    ∧ (get_sorted_children cs).Pairwise
        (fun a b => strLe (sortKey a) (sortKey b) = true)
    ∧ ∀ c ∈ cs, ∃ i : Nat, firstOccur LOCK_NAME.data c.data = some i ∧
        sortKey c = strDrop c (i + LOCK_NAME.length) := by
  refine ⟨List.perm_insertionSort _ cs, ?_, ?_⟩
  · letI : IsTrans String (fun a b => strLe (sortKey a) (sortKey b) = true) :=
      ⟨fun a b c h1 h2 => charListLe_trans _ _ _ h1 h2⟩
    letI : IsTotal String (fun a b => strLe (sortKey a) (sortKey b) = true) :=
      ⟨fun a b => charListLe_total _ _⟩
    exact List.sorted_insertionSort _ cs
  · intro c hc
    have h0 := h c hc
    cases ho : firstOccur LOCK_NAME.data c.data with
    | none => simp [pyFind, ho] at h0
    | some i =>
      refine ⟨i, rfl, ?_⟩
      have ht : ((i : Int) + (LOCK_NAME.length : Int)).toNat =
          i + LOCK_NAME.length := by omega
      simp only [sortKey, pyFind, ho, ht]

/-- C5 witness: three marker-bearing names sort by their sequence suffix,
not by their random prefix. -/
theorem sorted_by_marker_suffix_witness :
    (get_sorted_children ["zz_lock_0001", "aa_lock_0003", "mm_lock_0002"]).Perm
      ["zz_lock_0001", "aa_lock_0003", "mm_lock_0002"]
    ∧ (get_sorted_children ["zz_lock_0001", "aa_lock_0003", "mm_lock_0002"]).Pairwise
        (fun a b => strLe (sortKey a) (sortKey b) = true) :=
  ⟨(sorted_by_marker_suffix ["zz_lock_0001", "aa_lock_0003", "mm_lock_0002"]
      (by decide)).1,
   (sorted_by_marker_suffix ["zz_lock_0001", "aa_lock_0003", "mm_lock_0002"]
      (by decide)).2.1⟩

/-- C3: step 1 of the retried acquire body.  With `create_tried` false a
create at `create_path` is always issued and `create_tried` becomes true;
with `create_tried` true, re-discovery runs first and a create is issued
exactly when no listed child starts with the handle's prefix; in either
branch the resulting `node` is the discovered child, or the created name
with `path + "/"` stripped. -/
theorem inner_acquire_create_or_rediscover (st : LockState) (v : AcquireView)
    (hp : st.pfx ≠ "") :
    (st.create_tried = false →
      (innerAcquire st v).1.create_tried = true
      ∧ ZkOp.create st.create_path st.data true true ∈ (innerAcquire st v).2.1
      ∧ ∀ full, v.create_result = Except.ok full →
          (innerAcquire st v).1.node = some (strDrop full (st.path.length + 1)))
    ∧ (st.create_tried = true → ∀ cs, v.find_children = Except.ok cs →
        (innerAcquire st v).2.1.head? = some (ZkOp.getChildren st.path)
        ∧ (ZkOp.create st.create_path st.data true true ∈ (innerAcquire st v).2.1 ↔
            find_node st.pfx cs = none)
        ∧ (∀ c, find_node st.pfx cs = some c →
            (innerAcquire st v).1.node = some c)
        ∧ (find_node st.pfx cs = none →
            ∀ full, v.create_result = Except.ok full →
              (innerAcquire st v).1.node = some (strDrop full (st.path.length + 1)))) := by
  constructor
  · intro h
    rw [innerAcquire_fresh st v h]
    cases hcr : v.create_result with
    | error e =>
      rw [createAndGo_err _ _ _ _ hcr]
      refine ⟨rfl, by simp, ?_⟩
      intro full hfull
      exact absurd hfull (by simp)
    | ok full =>
      rw [createAndGo_ok _ _ _ _ hcr]
      refine ⟨rfl, by simp, ?_⟩
      intro f2 hf2
      have hff : full = f2 := by simpa using hf2
      subst hff
      rfl
  · intro h cs hv
    rw [innerAcquire_retry st v h cs hv]
    cases hf : find_node st.pfx cs with
    | some c =>
      have hf2 : List.find? (fun x => strStartsWith x st.pfx) cs = some c := hf
      have hsw : strStartsWith c st.pfx = true := by
        have hsw0 := List.find?_some hf2
        simpa using hsw0
      have hfal : pyFalsy (some c) = false := startsWith_not_falsy hsw hp
      rw [afterStep1_found _ _ _ _ hfal]
      refine ⟨by simp, ?_, ?_, ?_⟩
      · simp only [List.cons_append, List.nil_append]
        constructor
        · intro hmem
          rcases List.mem_cons.mp hmem with h1 | h1
          · exact absurd h1 (by simp)
          · exact absurd h1 (acquireLoop_no_create _ _ _ _ _ _ _)
        · intro h1
          exact absurd h1 (by simp)
      · intro c2 hc2
        have hcc : c = c2 := by simpa using hc2
        subst hcc
        rfl
      · intro h1
        exact absurd h1 (by simp)
    | none =>
      rw [afterStep1_none]
      cases hcr : v.create_result with
      | error e =>
        rw [createAndGo_err _ _ _ _ hcr]
        refine ⟨by simp, by simp, ?_, ?_⟩
        · intro c2 hc2
          exact absurd hc2 (by simp)
        · intro _ full hfull
          exact absurd hfull (by simp)
      | ok full =>
        rw [createAndGo_ok _ _ _ _ hcr]
        refine ⟨by simp, by simp, ?_, ?_⟩
        · intro c2 hc2
          exact absurd hc2 (by simp)
        · intro _ f2 hf2
          have hff : full = f2 := by simpa using hf2
          subst hff
          rfl

/-- C3 witness: on a retry (`create_tried` already true), re-discovery finds
the handle's node and `node` is set to it without a fresh create. -/
theorem inner_acquire_create_or_rediscover_witness :
    (innerAcquire demoHeld demoRediscover).1.node = some "u_lock_0000000001" :=
  ((inner_acquire_create_or_rediscover demoHeld demoRediscover (by decide)).2
    rfl ["u_lock_0000000001"] rfl).2.2.1 "u_lock_0000000001" (by decide)

/-- C8: when every failing `get` among the sorted children fails with
`NoNode`, `get_contenders` returns (without raising) the data of exactly
those children whose `get` succeeds, in sorted (arrival) order; vanished
children are silently skipped. -/
theorem get_contenders_skips_vanished (st : LockState) (v : ContendersView)
    (cs : List String) (hc : v.children = Except.ok cs)
    (h : ∀ c ∈ get_sorted_children cs, ∀ e,
        v.get_result (st.path ++ "/" ++ c) = Except.error e → e = ZkErr.noNode) :
    (get_contenders st v).2 =
      Outcome.ok ((get_sorted_children cs).filterMap
        (fun c => (v.get_result (st.path ++ "/" ++ c)).toOption)) := by
  simp only [get_contenders, hc]
  exact contendersLoop_ok st.path v.get_result (get_sorted_children cs) h

/-- C8 witness: with both children vanished between listing and fetching,
`get_contenders` returns the empty list instead of raising. -/
theorem get_contenders_skips_vanished_witness :
    (get_contenders demoHeld vanishedView).2 = Outcome.ok [] := by
  have h := get_contenders_skips_vanished demoHeld vanishedView
    ["b_lock_0002", "a_lock_0001"] rfl
    (fun c hc e he => (Except.error.inj he).symm)
  exact h.trans (by decide)

end Kazoo

